import Mathlib

/-!
Verification of the data-access and enrichment layer of the fantasy-ui
repository, shallowly embedded in Lean 4.

Conventions of the embedding:
* JavaScript objects whose values are numbers are modelled as association
  lists `List (String × ℚ)` (`StatMap`); `undefined` lookups become `none`.
* JavaScript numbers are modelled as rationals `ℚ` (all arithmetic the
  verified claims exercise — sums, division, doubling, comparison with
  constants — is exact on the values involved).
* Millisecond timestamps (`Date.now()`) are modelled as integers `Int`, so
  that differences such as `now - entry.timestamp` behave as in the source.
* `Map` objects used as caches / registries are modelled as association
  lists where `set` prepends (the prepended binding shadows an older one
  for `lookup`, matching `Map.set` followed by `Map.get`), and JavaScript
  objects built by keyed assignment are modelled as association lists in
  insertion order.
* Fallible fetches are modelled as `Except Unit payload` parameters: the
  `.error` case is the fetch (or JSON decode) throwing.
-/

/-! ## Data model -/

/-- A JavaScript object with numeric fields, e.g. a raw stats payload. -/
abbrev StatMap := List (String × ℚ)

/-- Entry of a TTL cache: `{ data, timestamp }` as written by
`setCachedData` / `setCachedLeagueData`. -/
structure CacheEntry (α : Type) where
  data : α
  timestamp : Int
deriving Repr, DecidableEq

/-- `this.CACHE_DURATION` of the projections service (30 minutes). -/
def PROJECTIONS_CACHE_DURATION : Int := 30 * 60 * 1000

/-- `this.LEAGUE_CACHE_DURATION` of the fantasy data service (5 minutes). -/
def LEAGUE_CACHE_DURATION : Int := 5 * 60 * 1000

/-- `getCachedData(key, cache)` of the projections service: return the
stored data when the entry exists and `Date.now() - cached.timestamp` is
strictly below the 30-minute duration, else `null` (here `none`). -/
def getCachedData (now : Int) (key : String) (cache : List (String × CacheEntry α)) :
    Option α :=
  match cache.lookup key with
  | some cached => if now - cached.timestamp < PROJECTIONS_CACHE_DURATION then
      some cached.data else none
  | none => none

/-- `setCachedData(key, data, cache)`: store `{ data, timestamp: Date.now() }`. -/
def setCachedData (now : Int) (key : String) (data : α)
    (cache : List (String × CacheEntry α)) : List (String × CacheEntry α) :=
  (key, ⟨data, now⟩) :: cache

/-- `getCachedLeagueData(cacheKey, cache)` of the fantasy data service:
identical shape, 5-minute duration. -/
def getCachedLeagueData (now : Int) (key : String)
    (cache : List (String × CacheEntry α)) : Option α :=
  match cache.lookup key with
  | some cached => if now - cached.timestamp < LEAGUE_CACHE_DURATION then
      some cached.data else none
  | none => none

/-- `setCachedLeagueData(cacheKey, data, cache)`. -/
def setCachedLeagueData (now : Int) (key : String) (data : α)
    (cache : List (String × CacheEntry α)) : List (String × CacheEntry α) :=
  (key, ⟨data, now⟩) :: cache

/-! ## Rate-limit window (`checkRateLimit`, sleeperApi.js lines 22-37) -/

/-- Mutable fields of `SleeperApiService` that `checkRateLimit` touches,
plus the configured limit. -/
structure RateLimitState where
  requestCount : Nat
  lastResetTime : Int
  rateLimit : Nat
deriving Repr, DecidableEq

/-- Outcome of one admission check: the call is admitted, or the method
throws `Rate limit exceeded`. -/
inductive RLOutcome
  | admitted
  | rejected
deriving Repr, DecidableEq

/-- `checkRateLimit()` at instant `now`: reset the counter when 60 s or
more elapsed since `lastResetTime`; then reject without incrementing when
`requestCount >= rateLimit`, else increment and admit. -/
def checkRateLimit (now : Int) (s : RateLimitState) : RLOutcome × RateLimitState :=
  let s1 := if 60000 ≤ now - s.lastResetTime then
      { s with requestCount := 0, lastResetTime := now } else s
  if s1.rateLimit ≤ s1.requestCount then (.rejected, s1)
  else (.admitted, { s1 with requestCount := s1.requestCount + 1 })

/-- Run a sequence of admission checks at the given instants. -/
def runChecks (s : RateLimitState) : List Int → RateLimitState
  | [] => s
  | now :: rest => runChecks (checkRateLimit now s).2 rest

/-! ## Request deduplication (`deduplicateRequest`, sleeperApi.js lines 44-64)

The source runs on the single-threaded JavaScript event loop: the body of
`deduplicateRequest` from the `pendingRequests.has(url)` check to the
`pendingRequests.set(url, requestPromise)` write contains no `await`, so it
executes atomically with respect to other logical callers.  `N` concurrent
calls are therefore modelled as `N` executions of that atomic prefix before
the shared promise settles; the settlement step then runs the sole owner's
`finally` block, which deletes the key. -/

/-- Shared state of the dedup registry.  `invocations` records, in order,
the promise ids created — each created promise corresponds to exactly one
invocation of `requestFn()`, i.e. one underlying network call. -/
structure DedupState where
  pendingRequests : List (String × Nat)
  nextPromiseId : Nat
  invocations : List Nat
deriving Repr, DecidableEq

/-- The atomic synchronous prefix of `deduplicateRequest(url, requestFn)`:
if the key is pending, return the stored promise (the caller is not the
owner); otherwise invoke `requestFn` (one network call, a fresh promise id)
and store it (this caller is the owner whose `finally` will delete the
key). Returns (promise id obtained, is-owner, state after). -/
def dedupCall (url : String) (s : DedupState) : Nat × Bool × DedupState :=
  match s.pendingRequests.lookup url with
  | some p => (p, false, s)
  | none =>
      (s.nextPromiseId, true,
        { pendingRequests := (url, s.nextPromiseId) :: s.pendingRequests,
          nextPromiseId := s.nextPromiseId + 1,
          invocations := s.invocations ++ [s.nextPromiseId] })

/-- `N` concurrent callers execute the atomic prefix one after another
(in some order — they are symmetric).  Returns each caller's
(promise id, is-owner) pair and the final state. -/
def dedupConcurrent (url : String) (s : DedupState) : Nat → List (Nat × Bool) × DedupState
  | 0 => ([], s)
  | n + 1 =>
      let (p, owner, s1) := dedupCall url s
      let (rest, s2) := dedupConcurrent url s1 n
      ((p, owner) :: rest, s2)

/-- Settlement of the shared promise: the owner's `finally` block runs and
deletes the key from the registry.  It takes no account of the outcome —
the deletion happens on success and on failure alike. -/
def dedupSettle (url : String) (s : DedupState) : DedupState :=
  { s with pendingRequests := s.pendingRequests.eraseP (fun kv => kv.1 == url) }

/-! ## Retry with backoff (`fetchWithErrorHandling`, sleeperApi.js lines 67-131) -/

/-- What one attempt of the retry loop encounters.  `rateLimited` is the
local admission check throwing; `http429` is an upstream 429 response with
the optional parsed `Retry-After` header (seconds); `httpStatus s` is a
non-ok response with status `s ≠ 429`; `jsonError` is an ok response whose
body fails to parse; `networkError` is `fetch` itself rejecting;
`success` is an ok, well-formed response. -/
inductive AttemptOutcome
  | success
  | http429 (retryAfter : Option Nat)
  | httpStatus (s : Nat)
  | jsonError
  | networkError
  | rateLimited
deriving Repr, DecidableEq

/-- Result surfaced by `fetchWithErrorHandling`. -/
inductive FetchResult
  | ok
  | errRateLimit
  | errHttp (status : Nat)
  | errJson
  | errNetwork
deriving Repr, DecidableEq

/-- `this.baseDelay` (1 second). -/
def baseDelay : Nat := 1000

/-- `this.maxRetries`. -/
def maxRetries : Nat := 3

/-- The retry loop, from attempt index `a`, accumulating the list of sleep
delays taken so far.  Mirrors the `for (attempt = 0; attempt <= maxRetries)`
loop: a 429 with retries left sleeps `Retry-After * 1000` when the header
is present, else `baseDelay * 2 ^ attempt`, and continues; a local
rate-limit rejection with retries left sleeps `baseDelay * 2 ^ attempt` and
continues; every other failure (and a rate-limit failure on the last
attempt) surfaces immediately.  Returns (result, attempts used, delays). -/
def fetchLoop (oracle : Nat → AttemptOutcome) (a : Nat) (ds : List Nat) :
    FetchResult × Nat × List Nat :=
  match oracle a with
  | .success => (.ok, a + 1, ds)
  | .http429 ra =>
      if h : a < maxRetries then
        fetchLoop oracle (a + 1)
          (ds ++ [match ra with
                  | some sec => sec * 1000
                  | none => baseDelay * 2 ^ a])
      else (.errHttp 429, a + 1, ds)
  | .httpStatus s => (.errHttp s, a + 1, ds)
  | .jsonError => (.errJson, a + 1, ds)
  | .networkError => (.errNetwork, a + 1, ds)
  | .rateLimited =>
      if h : a < maxRetries then
        fetchLoop oracle (a + 1) (ds ++ [baseDelay * 2 ^ a])
      else (.errRateLimit, a + 1, ds)
termination_by maxRetries + 1 - a
decreasing_by all_goals omega

/-- `fetchWithErrorHandling(url)` as a function of what each attempt
encounters: run the loop from attempt 0 with no delays taken. -/
def fetchWithErrorHandling (oracle : Nat → AttemptOutcome) :
    FetchResult × Nat × List Nat :=
  fetchLoop oracle 0 []

/-- Concrete oracle for the C3 counterexample: the first attempt receives
an upstream 429 carrying `Retry-After: 10`, the next attempt succeeds. -/
def fetchOracle429 : Nat → AttemptOutcome :=
  fun a => if a = 0 then .http429 (some 10) else .success

/-! ## Scoring classification (`getScoringType`, fantasyDataService lines 1813-1837) -/

/-- The reception fields of a league's scoring settings.  `recPoints` is
the source's `rec` field (`rec` is a reserved word in Lean). -/
structure ScoringSettings where
  recPoints : Option ℚ
  rec_half : Option ℚ
deriving Repr, DecidableEq

/-- The derived scoring class. -/
inductive ScoringType
  | ppr
  | half_ppr
deriving Repr, DecidableEq

/-- `getScoringType(scoringSettings)`: missing settings default to
half-PPR; `rec === 1` gives full PPR; every other case (0.5, standard,
custom) gives half-PPR. -/
def getScoringType : Option ScoringSettings → ScoringType
  | none => .half_ppr
  | some s =>
      let recv := s.recPoints.getD 0
      let rhalf := s.rec_half.getD 0
      if recv = 1 then .ppr
      else if recv = 1 / 2 ∨ rhalf = 1 / 2 then .half_ppr
      else if recv = 0 ∧ rhalf = 0 then .half_ppr
      else .half_ppr

/-- `pointsField = scoringType === 'ppr' ? 'pts_ppr' : 'pts_half_ppr'`. -/
def pointsFieldOf : ScoringType → String
  | .ppr => "pts_ppr"
  | .half_ppr => "pts_half_ppr"

/-! ## Bulk projections (`getPlayerProjections`, projectionsService lines 2146-2223) -/

/-- Entry of the per-player projection map built by `getPlayerProjections`.
`projected_points` is an `Option` because `enhancePlayerData` tests it
against `undefined`; `getPlayerProjections` always populates it. -/
structure ProjEntry where
  player_id : String
  projected_points : Option ℚ
  stats : StatMap
deriving Repr, DecidableEq

/-- Result of the underlying `getWeeklyProjections` call: an object keyed
by player id, an unexpected array response, or a thrown error. -/
inductive BulkResult
  | obj (m : List (String × StatMap))
  | arr
  | err
deriving Repr, DecidableEq

/-- The per-player body of `getPlayerProjections`: when the feed has an
entry for the id, extract `pts_half_ppr || 0` (the extractor reads
`pts_half_ppr` unconditionally) and keep the raw stats; otherwise — and in
the array-format and error fallbacks — yield zero points and empty stats. -/
def projEntryFor (bulk : BulkResult) (pid : String) : ProjEntry :=
  match bulk with
  | .obj m =>
      match m.lookup pid with
      | some pd => ⟨pid, some ((pd.lookup "pts_half_ppr").getD 0), pd⟩
      | none => ⟨pid, some 0, []⟩
  | .arr => ⟨pid, some 0, []⟩
  | .err => ⟨pid, some 0, []⟩

/-- `getPlayerProjections(playerIds, ...)`: one entry per requested id, in
request order; total in every case (the catch branch returns the all-zero
map instead of rethrowing). -/
def getPlayerProjections (playerIds : List String) (bulk : BulkResult) :
    List (String × ProjEntry) :=
  playerIds.map fun pid => (pid, projEntryFor bulk pid)

/-! ## Per-player projection / stat accessors (projectionsService lines 2410-2554)

Each accessor is written as a function of the outcome of its underlying
fetch (the cache-miss path; the cache layer is verified separately by the
cache contract).  The codomain is `Except` so that "propagates the error"
is expressible: the source's `catch` branches return an empty object, i.e.
`.ok []`, never `.error`. -/

/-- A per-week node of a player-specific projections / stats payload:
an optional nested `stats` object plus the fields sitting directly on the
week object. -/
structure WeekEntry where
  stats : Option StatMap
  direct : StatMap
deriving Repr, DecidableEq

/-- Mapping from week number to the week's payload. -/
abbrev WeekMap := List (Nat × WeekEntry)

/-- `getPlayerSpecificProjections`: returns the decoded payload; on any
fetch / HTTP / decode error it catches and returns `{}`. -/
def getPlayerSpecificProjections (resp : Except Unit WeekMap) : Except Unit WeekMap :=
  match resp with
  | .ok d => .ok d
  | .error _ => .ok []

/-- `getPlayerSpecificStats`: same shape as the projections accessor. -/
def getPlayerSpecificStats (resp : Except Unit WeekMap) : Except Unit WeekMap :=
  match resp with
  | .ok d => .ok d
  | .error _ => .ok []

/-- A row of the bulk historical-stats list response: `player_id`, the
nested `stats` object, and the annotation fields (`player_info`, `team`,
`opponent`, `week`) that the reshape appends, collapsed into one map. -/
structure HistStatRow where
  player_id : Option String
  stats : Option StatMap
  extra : StatMap
deriving Repr, DecidableEq

/-- `getHistoricalStats`: reshape the list response into a map keyed by
player id, keeping only rows that have both `player_id` and `stats`, each
entry being the spread of the row's stats plus the annotations; on any
fetch / HTTP / decode error it catches and returns `{}`. -/
def getHistoricalStats (resp : Except Unit (List HistStatRow)) :
    Except Unit (List (String × StatMap)) :=
  match resp with
  | .ok rows => .ok (rows.filterMap fun r =>
      match r.player_id, r.stats with
      | some pid, some st => some (pid, st ++ r.extra)
      | _, _ => none)
  | .error _ => .ok []

/-! ## Season average (`getPlayerSeasonAverage`, projectionsService lines 2564-2611) -/

/-- One step of the `forEach` accumulation: weeks whose nested `stats`
object carries the points field add to the total and the game count;
every other week is skipped. -/
def seasonAccum (pf : String) (acc : ℚ × Nat) (wk : Nat × WeekEntry) : ℚ × Nat :=
  match wk.2.stats.bind (fun st => st.lookup pf) with
  | some v => (acc.1 + v, acc.2 + 1)
  | none => acc

/-- `getPlayerSeasonAverage(playerId, season, seasonType, scoringType)` as
a function of the fetched per-player stats: choose the points field from
the scoring type, sum it over weeks that carry it, divide by the count of
such weeks, and return 0 when no week carries it or when the fetch threw. -/
def getPlayerSeasonAverage (specStats : Except Unit WeekMap)
    (scoringType : ScoringType) : ℚ :=
  let pf := if scoringType = .ppr then "pts_ppr" else "pts_half_ppr"
  match specStats with
  | .error _ => 0
  | .ok m =>
      let acc := m.foldl (seasonAccum pf) (0, 0)
      if acc.2 = 0 then 0 else acc.1 / (acc.2 : ℚ)

/-! ## Enrichment (`enhancePlayerData`, fantasyDataService lines 1839-1982) -/

/-- Contribution of one week inside the rest-of-year loop: the nested
`stats` object's points field when present, else the field directly on the
week object, else 0; a missing week contributes 0. -/
def weekPoints (m : WeekMap) (pf : String) (week : Nat) : ℚ :=
  match m.lookup week with
  | some w =>
      match w.stats.bind (fun st => st.lookup pf) with
      | some v => v
      | none => (w.direct.lookup pf).getD 0
  | none => 0

/-- The rest-of-year block: on a fetch error the catch sets 0; otherwise
sum `weekPoints` over the loop `for (week = currentWeek + 1; week <= 18)`. -/
def computeRestOfYear (specProj : Except Unit WeekMap) (pf : String)
    (currentWeek : Nat) : ℚ :=
  match specProj with
  | .error _ => 0
  | .ok m =>
      ((List.range' (currentWeek + 1) (18 - currentWeek)).map (weekPoints m pf)).sum

/-- The projected-points block: use the bulk entry's `projected_points`
when defined; otherwise fall back to the per-player projections for the
current week, reading the points field directly on the week object; 0 when
neither source has data or the fallback fetch threw. -/
def computeProjectedPoints (bulkEntry : Option ProjEntry)
    (specProj : Except Unit WeekMap) (pf : String) (currentWeek : Nat) : ℚ :=
  match bulkEntry.bind (fun e => e.projected_points) with
  | some v => v
  | none =>
      match specProj with
      | .error _ => 0
      | .ok m =>
          match m.lookup currentWeek with
          | some w => (w.direct.lookup pf).getD 0
          | none => 0

/-- The previous-week block: the points field of the player's entry in the
historical-stat map, 0 when the entry or the field is absent. -/
def computePreviousWeekPoints (statEntry : Option StatMap) (pf : String) : ℚ :=
  match statEntry.bind (fun st => st.lookup pf) with
  | some v => v
  | none => 0

/-- A roster player as far as enrichment reads it (only `player_id`). -/
structure Player where
  player_id : String
deriving Repr, DecidableEq

/-- Inputs of one `enhancePlayerData` call: the bulk projection map, the
historical-stat map, the two per-player fetch oracles (a `.error` result is
the corresponding await throwing), the scoring settings and current week. -/
structure EnrichEnv where
  projections : List (String × ProjEntry)
  stats : List (String × StatMap)
  specProj : String → Except Unit WeekMap
  specStats : String → Except Unit WeekMap
  scoringSettings : Option ScoringSettings
  currentWeek : Nat

/-- The enriched record pushed for one player: the input player plus the
four computed metrics and the carried-through raw stat objects. -/
structure EnhancedPlayer where
  base : Player
  projected_points : ℚ
  rest_of_year : ℚ
  projections_stats : StatMap
  previous_week_points : ℚ
  previous_week_stats : StatMap
  season_avg : ℚ
  weekly_stats : StatMap
deriving Repr, DecidableEq

/-- The loop body of `enhancePlayerData` for one player. -/
def enhanceOne (env : EnrichEnv) (player : Player) : EnhancedPlayer :=
  let scoringType := getScoringType env.scoringSettings
  let pf := pointsFieldOf scoringType
  let playerProjections := env.projections.lookup player.player_id
  let playerStats := (env.stats.lookup player.player_id).getD []
  { base := player
    projected_points := computeProjectedPoints playerProjections
      (env.specProj player.player_id) pf env.currentWeek
    rest_of_year := computeRestOfYear (env.specProj player.player_id) pf env.currentWeek
    projections_stats := (playerProjections.map (fun e => e.stats)).getD []
    previous_week_points := computePreviousWeekPoints
      (env.stats.lookup player.player_id) pf
    previous_week_stats := if (playerStats.lookup pf).isSome then playerStats else []
    season_avg := getPlayerSeasonAverage (env.specStats player.player_id) scoringType
    weekly_stats := playerStats }

/-- The `for (const player of players)` loop with its push-accumulator. -/
def enhancePlayerDataGo (env : EnrichEnv) :
    List Player → List EnhancedPlayer → List EnhancedPlayer
  | [], acc => acc.reverse
  | p :: rest, acc => enhancePlayerDataGo env rest (enhanceOne env p :: acc)

/-- `enhancePlayerData(players, projections, stats, ...)`. -/
def enhancePlayerData (env : EnrichEnv) (players : List Player) : List EnhancedPlayer :=
  enhancePlayerDataGo env players []

/-! ## Concrete inputs used by counterexamples and witnesses -/

/-- Scoring settings of a full-PPR league (`rec = 1`). -/
def pprSettings : Option ScoringSettings := some ⟨some 1, none⟩

/-- Feed object whose entry for P1 has `pts_ppr = 10` and
`pts_half_ppr = 7`. -/
def c1FeedMap : List (String × StatMap) :=
  [("P1", [("pts_ppr", 10), ("pts_half_ppr", 7)])]

/-- Bulk projection result wrapping `c1FeedMap`. -/
def c1Feed : BulkResult := .obj c1FeedMap

/-- Enrichment environment for the C1 counterexample: a full-PPR league
whose bulk map was built by `getPlayerProjections` from `c1Feed`. -/
def envC1 : EnrichEnv :=
  { projections := getPlayerProjections ["P1"] c1Feed
    stats := []
    specProj := fun _ => .ok []
    specStats := fun _ => .ok []
    scoringSettings := pprSettings
    currentWeek := 5 }

/-- Per-player projections of the C5 example: week 6 worth 5 points, week
7 worth 7 points, every other week absent. -/
def c5Proj : WeekMap :=
  [(6, ⟨some [("pts_half_ppr", 5)], []⟩), (7, ⟨some [("pts_half_ppr", 7)], []⟩)]

/-- Per-player season stats of the C6 example: week 1 worth 10, week 2
missing its stats object, week 3 worth 20 (both point fields agree, so the
example is valid for either scoring class). -/
def c6Stats : WeekMap :=
  [(1, ⟨some [("pts_ppr", 10), ("pts_half_ppr", 10)], []⟩),
   (2, ⟨none, []⟩),
   (3, ⟨some [("pts_ppr", 20), ("pts_half_ppr", 20)], []⟩)]

/-- Enrichment environment for the C4 witness: P1's per-player fetches
throw and P1 has no bulk entry; P2 has full data. -/
def envC4 : EnrichEnv :=
  { projections := [("P2", ⟨"P2", some 14, [("pts_half_ppr", 14)]⟩)]
    stats := [("P2", [("pts_half_ppr", 9)])]
    specProj := fun pid => if pid = "P1" then .error () else .ok c5Proj
    specStats := fun pid => if pid = "P1" then .error () else .ok c6Stats
    scoringSettings := some ⟨some 0, some 0⟩
    currentWeek := 5 }

/-! ## Theorems -/

/-- C7: for both cache classes (projection/stat cache, 30 min, and league
cache, 5 min), a `get` after a `put` for a key returns the stored value
unchanged whenever the elapsed time is strictly below the duration, and
reports a miss (`none`) whenever the elapsed time is at least the duration
or no entry exists for the key. -/
theorem cache_get_put_contract {α : Type} (now t : Int) (key : String) (d : α)
    (cache : List (String × CacheEntry α)) :
    (now - t < PROJECTIONS_CACHE_DURATION →
      getCachedData now key (setCachedData t key d cache) = some d) ∧
    (PROJECTIONS_CACHE_DURATION ≤ now - t →
      getCachedData now key (setCachedData t key d cache) = none) ∧
    (cache.lookup key = none → getCachedData now key cache = none) ∧
    (now - t < LEAGUE_CACHE_DURATION →
      getCachedLeagueData now key (setCachedLeagueData t key d cache) = some d) ∧
    (LEAGUE_CACHE_DURATION ≤ now - t →
      getCachedLeagueData now key (setCachedLeagueData t key d cache) = none) ∧
    (cache.lookup key = none → getCachedLeagueData now key cache = none) := by
  refine ⟨?_, ?_, ?_, ?_, ?_, ?_⟩ <;>
    intro h <;>
    simp [getCachedData, setCachedData, getCachedLeagueData, setCachedLeagueData,
      List.lookup, h]

/-- Witness for C7 at concrete inputs: a put at time 0 read back at time 1
hits in both caches; read back after the duration misses. -/
theorem cache_get_put_contract_witness :
    getCachedData 1 "k" (setCachedData 0 "k" (37 : ℚ) []) = some 37 ∧
    getCachedData 1800000 "k" (setCachedData 0 "k" (37 : ℚ) []) = none ∧
    getCachedLeagueData 1 "k" (setCachedLeagueData 0 "k" (37 : ℚ) []) = some 37 ∧
    getCachedLeagueData 300000 "k" (setCachedLeagueData 0 "k" (37 : ℚ) []) = none := by
  have h1 := (cache_get_put_contract (α := ℚ) 1 0 "k" 37 []).1 (by decide)
  have h2 := (cache_get_put_contract (α := ℚ) 1800000 0 "k" 37 []).2.1 (by decide)
  have h3 := (cache_get_put_contract (α := ℚ) 1 0 "k" 37 []).2.2.2.1 (by decide)
  have h4 := (cache_get_put_contract (α := ℚ) 300000 0 "k" 37 []).2.2.2.2.1 (by decide)
  exact ⟨h1, h2, h3, h4⟩

/-- One step preserves `requestCount ≤ rateLimit` and the limit itself. -/
theorem checkRateLimit_step_le (now : Int) (s : RateLimitState)
    (h : s.requestCount ≤ s.rateLimit) :
    (checkRateLimit now s).2.requestCount ≤ (checkRateLimit now s).2.rateLimit ∧
    (checkRateLimit now s).2.rateLimit = s.rateLimit := by
  unfold checkRateLimit
  dsimp only
  split <;> split <;> simp_all <;> omega

/-- C8: (1) `count ≤ limit` holds at every state reachable from a state
satisfying it (in particular from the constructor state, whose count is 0)
by any sequence of admission checks; (2) when the window is not yet elapsed
and `count = limit`, the next attempt is rejected with the state unchanged
(no increment); (3) whenever 60 s or more elapsed since the window start,
the counter is reset to 0, the window start advances to `now`, and (when
the limit is positive) the attempt is admitted with the fresh window
counting from 0, i.e. the post-state count is 1. -/
theorem rate_limit_window_invariant (s : RateLimitState) (times : List Int) (now : Int)
    (hinv : s.requestCount ≤ s.rateLimit) :
    ((runChecks s times).requestCount ≤ (runChecks s times).rateLimit) ∧
    (now - s.lastResetTime < 60000 → s.requestCount = s.rateLimit →
      checkRateLimit now s = (.rejected, s)) ∧
    (60000 ≤ now - s.lastResetTime → 0 < s.rateLimit →
      checkRateLimit now s =
        (.admitted, ⟨1, now, s.rateLimit⟩)) := by
  refine ⟨?_, ?_, ?_⟩
  · induction times generalizing s with
    | nil => exact hinv
    | cons t rest ih =>
      have hs := checkRateLimit_step_le t s hinv
      exact ih _ hs.1
  · intro hwin hfull
    unfold checkRateLimit
    have hnot : ¬ (60000 ≤ now - s.lastResetTime) := by omega
    simp [hnot, hfull]
  · intro hwin hpos
    unfold checkRateLimit
    simp [hwin, Nat.not_le.mpr hpos]

/-- Witness for C8 at concrete inputs: limit 2, start at time 0, checks at
times 0, 1, 2 (third one rejected, no increment), then a check at 60000
resets and admits from a fresh window. -/
theorem rate_limit_window_invariant_witness :
    ((runChecks ⟨0, 0, 2⟩ [0, 1, 2]).requestCount ≤
      (runChecks ⟨0, 0, 2⟩ [0, 1, 2]).rateLimit) ∧
    (checkRateLimit 2 ⟨2, 0, 2⟩ = (.rejected, ⟨2, 0, 2⟩)) ∧
    (checkRateLimit 60000 ⟨2, 0, 2⟩ = (.admitted, ⟨1, 60000, 2⟩)) := by
  refine ⟨(rate_limit_window_invariant ⟨0, 0, 2⟩ [0, 1, 2] 0 (by decide)).1,
    (rate_limit_window_invariant ⟨2, 0, 2⟩ [] 2 (by decide)).2.1 (by decide) rfl,
    (rate_limit_window_invariant ⟨2, 0, 2⟩ [] 60000 (by decide)).2.2 (by decide) (by decide)⟩

/-- After one fresh `dedupCall`, later concurrent callers all receive the
same promise id, are not owners, and leave the state untouched. -/
theorem dedupConcurrent_after_insert (url : String) (s : DedupState) (p : Nat)
    (hp : s.pendingRequests.lookup url = some p) (n : Nat) :
    dedupConcurrent url s n = (List.replicate n (p, false), s) := by
  induction n with
  | zero => simp [dedupConcurrent]
  | succ k ih => simp [dedupConcurrent, dedupCall, hp, ih, List.replicate_succ]

/-- C2: for every key `url` not currently pending and every `N ≥ 1`,
issuing `N` concurrent calls produces exactly one invocation of
`requestFn` (one underlying network call); every caller holds the same
promise, so for every settlement outcome (success or failure alike) all
`N` callers observe equal results; exactly one caller owns the `finally`
block; and settlement removes the key from the registry exactly once,
restoring the original registry. -/
theorem dedup_concurrent_single_invocation (url : String) (s : DedupState) (n : Nat)
    (hfresh : s.pendingRequests.lookup url = none) (hn : 1 ≤ n) :
    ((dedupConcurrent url s n).2.invocations = s.invocations ++ [s.nextPromiseId]) ∧
    ((dedupConcurrent url s n).1.map Prod.fst = List.replicate n s.nextPromiseId) ∧
    (∀ outcome : Nat → Except Unit ℚ,
      (dedupConcurrent url s n).1.map (fun r => outcome r.1) =
        List.replicate n (outcome s.nextPromiseId)) ∧
    (((dedupConcurrent url s n).1.filter Prod.snd).length = 1) ∧
    ((dedupSettle url (dedupConcurrent url s n).2).pendingRequests = s.pendingRequests) ∧
    ((dedupSettle url (dedupConcurrent url s n).2).pendingRequests.lookup url = none) := by
  obtain ⟨m, rfl⟩ : ∃ m, n = m + 1 := ⟨n - 1, by omega⟩
  have hstep : dedupCall url s =
      (s.nextPromiseId, true,
        { pendingRequests := (url, s.nextPromiseId) :: s.pendingRequests,
          nextPromiseId := s.nextPromiseId + 1,
          invocations := s.invocations ++ [s.nextPromiseId] }) := by
    simp [dedupCall, hfresh]
  have hrest := dedupConcurrent_after_insert url
    { pendingRequests := (url, s.nextPromiseId) :: s.pendingRequests,
      nextPromiseId := s.nextPromiseId + 1,
      invocations := s.invocations ++ [s.nextPromiseId] }
    s.nextPromiseId (by simp [List.lookup]) m
  refine ⟨?_, ?_, ?_, ?_, ?_, ?_⟩ <;>
    simp [dedupConcurrent, hstep, hrest, dedupSettle, List.replicate_succ,
      List.eraseP_cons, List.filter_replicate, hfresh]

/-- Witness for C2: three concurrent callers on a fresh registry produce
one invocation, equal results, one owner, and one removal. -/
theorem dedup_concurrent_single_invocation_witness :
    ((dedupConcurrent "u" ⟨[], 0, []⟩ 3).2.invocations = [] ++ [0]) ∧
    ((dedupConcurrent "u" ⟨[], 0, []⟩ 3).1.map Prod.fst = List.replicate 3 0) ∧
    (∀ outcome : Nat → Except Unit ℚ,
      (dedupConcurrent "u" ⟨[], 0, []⟩ 3).1.map (fun r => outcome r.1) =
        List.replicate 3 (outcome 0)) ∧
    (((dedupConcurrent "u" ⟨[], 0, []⟩ 3).1.filter Prod.snd).length = 1) ∧
    ((dedupSettle "u" (dedupConcurrent "u" ⟨[], 0, []⟩ 3).2).pendingRequests = []) ∧
    ((dedupSettle "u" (dedupConcurrent "u" ⟨[], 0, []⟩ 3).2).pendingRequests.lookup "u"
      = none) :=
  dedup_concurrent_single_invocation "u" ⟨[], 0, []⟩ 3 rfl (by decide)

/-- The retry loop never uses more than `maxRetries + 1` attempts when
started at an attempt index within budget. -/
theorem fetchLoop_attempts_le (oracle : Nat → AttemptOutcome) :
    ∀ fuel a ds, maxRetries + 1 - a = fuel → a ≤ maxRetries →
      (fetchLoop oracle a ds).2.1 ≤ maxRetries + 1 := by
  intro fuel
  induction fuel with
  | zero => intro a ds hf ha; omega
  | succ k ih =>
      intro a ds hf ha
      rw [fetchLoop]
      cases h : oracle a with
      | success => simpa using ha
      | http429 ra =>
          by_cases hlt : a < maxRetries
          · simp only [hlt, dif_pos]
            exact ih (a + 1) _ (by omega) (by omega)
          · simp only [hlt, dif_neg, not_false_iff]
            omega
      | httpStatus s => simpa using ha
      | jsonError => simpa using ha
      | networkError => simpa using ha
      | rateLimited =>
          by_cases hlt : a < maxRetries
          · simp only [hlt, dif_pos]
            exact ih (a + 1) _ (by omega) (by omega)
          · simp only [hlt, dif_neg, not_false_iff]
            omega

/-- C3 (amended): `fetchWithErrorHandling` makes at most 4 attempts; a
non-429 HTTP error, a malformed body, or a network failure surfaces
immediately with no retry and no delay; retries happen only on an upstream
429 or a local rate-limit rejection, and the delay before retry `k`
(attempt index `a = k - 1 < 3`) is `Retry-After * 1000` ms when the 429
carries the header — with no upper clamp — and `1000 * 2 ^ (k - 1)` ms
(1000, 2000, 4000) otherwise; a rate-limit failure on the 4th attempt
surfaces the error with no further retry. -/
theorem fetch_retry_policy (oracle : Nat → AttemptOutcome) (a : Nat) (ds : List Nat)
    (sec s : Nat) :
    ((fetchWithErrorHandling oracle).2.1 ≤ 4) ∧
    (oracle a = .httpStatus s → fetchLoop oracle a ds = (.errHttp s, a + 1, ds)) ∧
    (oracle a = .jsonError → fetchLoop oracle a ds = (.errJson, a + 1, ds)) ∧
    (oracle a = .networkError → fetchLoop oracle a ds = (.errNetwork, a + 1, ds)) ∧
    (a < maxRetries → oracle a = .http429 (some sec) →
      fetchLoop oracle a ds = fetchLoop oracle (a + 1) (ds ++ [sec * 1000])) ∧
    (a < maxRetries → oracle a = .http429 none →
      fetchLoop oracle a ds = fetchLoop oracle (a + 1) (ds ++ [baseDelay * 2 ^ a])) ∧
    (a < maxRetries → oracle a = .rateLimited →
      fetchLoop oracle a ds = fetchLoop oracle (a + 1) (ds ++ [baseDelay * 2 ^ a])) ∧
    (oracle maxRetries = .http429 (some sec) →
      fetchLoop oracle maxRetries ds = (.errHttp 429, maxRetries + 1, ds)) ∧
    (oracle maxRetries = .http429 none →
      fetchLoop oracle maxRetries ds = (.errHttp 429, maxRetries + 1, ds)) ∧
    (oracle maxRetries = .rateLimited →
      fetchLoop oracle maxRetries ds = (.errRateLimit, maxRetries + 1, ds)) := by
  refine ⟨fetchLoop_attempts_le oracle (maxRetries + 1) 0 [] rfl (by omega),
    ?_, ?_, ?_, ?_, ?_, ?_, ?_, ?_, ?_⟩ <;>
    intro h
  · rw [fetchLoop, h]
  · rw [fetchLoop, h]
  · rw [fetchLoop, h]
  · intro h429; rw [fetchLoop, h429]; simp [h]
  · intro h429; rw [fetchLoop, h429]; simp [h]
  · intro hrl; rw [fetchLoop, hrl]; simp [h]
  · rw [fetchLoop, h]; simp
  · rw [fetchLoop, h]; simp
  · rw [fetchLoop, h]; simp

/-- Witness for C3's theorem at concrete inputs, exercising each guarded
conjunct: immediate surfacing of a 500, a retried 429 with and without the
header, a retried local rejection, and exhaustion at attempt index 3. -/
theorem fetch_retry_policy_witness :
    ((fetchWithErrorHandling (fun _ => .rateLimited)).2.1 ≤ 4) ∧
    (fetchLoop (fun _ => .httpStatus 500) 0 [] = (.errHttp 500, 1, [])) ∧
    (fetchLoop (fun _ => .http429 (some 10)) 0 [] =
      fetchLoop (fun _ => .http429 (some 10)) 1 [10 * 1000]) ∧
    (fetchLoop (fun _ => .http429 none) 1 [] =
      fetchLoop (fun _ => .http429 none) 2 [baseDelay * 2 ^ 1]) ∧
    (fetchLoop (fun _ => .rateLimited) 2 [] =
      fetchLoop (fun _ => .rateLimited) 3 [baseDelay * 2 ^ 2]) ∧
    (fetchLoop (fun _ => .http429 none) maxRetries [] = (.errHttp 429, maxRetries + 1, [])) ∧
    (fetchLoop (fun _ => .rateLimited) maxRetries [] = (.errRateLimit, maxRetries + 1, [])) := by
  refine ⟨(fetch_retry_policy (fun _ => .rateLimited) 0 [] 0 0).1,
    (fetch_retry_policy (fun _ => .httpStatus 500) 0 [] 0 500).2.1 rfl,
    ?_, ?_, ?_,
    (fetch_retry_policy (fun _ => .http429 none) 0 [] 0 0).2.2.2.2.2.2.2.2.1 rfl,
    (fetch_retry_policy (fun _ => .rateLimited) 0 [] 0 0).2.2.2.2.2.2.2.2.2 rfl⟩
  · simpa using
      (fetch_retry_policy (fun _ => .http429 (some 10)) 0 [] 10 0).2.2.2.2.1
        (by decide) rfl
  · simpa using
      (fetch_retry_policy (fun _ => .http429 none) 1 [] 0 0).2.2.2.2.2.1
        (by decide) rfl
  · simpa using
      (fetch_retry_policy (fun _ => .rateLimited) 2 [] 0 0).2.2.2.2.2.2.1
        (by decide) rfl

/-- Counterexample to C3 as stated: a 429 carrying `Retry-After: 10` on
the first attempt produces a delay of 10000 ms, not
`min(10 * 1000, 1000 * 2 ^ 0) = 1000` ms — the code never clamps the
server hint by the exponential schedule. -/
theorem fetch_retry_after_no_min_counterexample :
    fetchWithErrorHandling fetchOracle429 = (.ok, 2, [10000]) ∧
    min (10 * 1000) (baseDelay * 2 ^ 0) = 1000 ∧
    (fetchWithErrorHandling fetchOracle429).2.2 ≠ [min (10 * 1000) (baseDelay * 2 ^ 0)] := by
  have h1 : fetchWithErrorHandling fetchOracle429 = (.ok, 2, [10000]) := by
    unfold fetchWithErrorHandling
    rw [fetchLoop]
    simp only [fetchOracle429, maxRetries]
    norm_num
    rw [fetchLoop]
    simp [fetchOracle429]
  exact ⟨h1, by decide, by rw [h1]; decide⟩

/-- C9 (amended): every network/HTTP/decode failure of the underlying
fetch is caught inside the three accessors — bulk weekly historical stats,
per-player season projections, per-player season stats — and an empty map
is returned in its place; no error propagates to the caller.  Successful
payloads pass through unchanged. -/
theorem accessors_swallow_errors :
    (∀ e : Unit, getHistoricalStats (.error e) = .ok []) ∧
    (∀ e : Unit, getPlayerSpecificProjections (.error e) = .ok []) ∧
    (∀ e : Unit, getPlayerSpecificStats (.error e) = .ok []) ∧
    (∀ d : WeekMap, getPlayerSpecificProjections (.ok d) = .ok d) ∧
    (∀ d : WeekMap, getPlayerSpecificStats (.ok d) = .ok d) := by
  refine ⟨fun e => rfl, fun e => rfl, fun e => rfl, fun d => rfl, fun d => rfl⟩

/-- Counterexample to C9 as stated: a failing fetch makes each of the
three accessors return the empty map as a successful result — the error is
substituted, not propagated. -/
theorem accessors_propagate_counterexample :
    getHistoricalStats (.error ()) = .ok [] ∧
    getHistoricalStats (.error ()) ≠ .error () ∧
    getPlayerSpecificProjections (.error ()) = .ok [] ∧
    getPlayerSpecificProjections (.error ()) ≠ .error () ∧
    getPlayerSpecificStats (.error ()) = .ok [] ∧
    getPlayerSpecificStats (.error ()) ≠ .error () := by
  refine ⟨rfl, ?_, rfl, ?_, rfl, ?_⟩ <;>
    simp [getHistoricalStats, getPlayerSpecificProjections, getPlayerSpecificStats]

/-- Lookup in a map built by pairing each id with a computed value. -/
theorem lookup_map_pair (f : String → ProjEntry) (ids : List String) (pid : String)
    (h : pid ∈ ids) :
    (ids.map (fun i => (i, f i))).lookup pid = some (f pid) := by
  induction ids with
  | nil => cases h
  | cons a rest ih =>
      by_cases hp : pid = a
      · subst hp; simp [List.lookup]
      · rcases List.mem_cons.mp h with h1 | h2
        · exact absurd h1 hp
        · have hba : (pid == a) = false := beq_eq_false_iff_ne.mpr hp
          simp [List.lookup, hba, ih h2]

/-- C10: `getPlayerProjections` is total (the catch branch returns the
all-zero map, so no input makes it throw) and returns exactly one entry
per requested id, in request order; an id whose feed entry exists gets
`projected_points = pts_half_ppr || 0` of that entry with the raw stats
kept; an id absent from the feed gets `{projected_points: 0, stats: {}}`;
and when the bulk fetch itself failed every id gets
`{projected_points: 0, stats: {}}`. -/
theorem player_projections_contract (ids : List String) (bulk : BulkResult)
    (pid : String) (m : List (String × StatMap)) (pd : StatMap) :
    ((getPlayerProjections ids bulk).map Prod.fst = ids) ∧
    (pid ∈ ids →
      (getPlayerProjections ids bulk).lookup pid = some (projEntryFor bulk pid)) ∧
    (m.lookup pid = some pd →
      projEntryFor (.obj m) pid = ⟨pid, some ((pd.lookup "pts_half_ppr").getD 0), pd⟩) ∧
    (m.lookup pid = none → projEntryFor (.obj m) pid = ⟨pid, some 0, []⟩) ∧
    (projEntryFor .err pid = ⟨pid, some 0, []⟩) := by
  refine ⟨?_, ?_, ?_, ?_, rfl⟩
  · have hc : (Prod.fst ∘ fun pid => (pid, projEntryFor bulk pid)) = id := rfl
    simp [getPlayerProjections, List.map_map, hc]
  · intro h
    exact lookup_map_pair (projEntryFor bulk) ids pid h
  · intro h; simp [projEntryFor, h]
  · intro h; simp [projEntryFor, h]

/-- Witness for C10 at concrete inputs: ids A (present in the feed with
`pts_half_ppr = 3`) and B (absent); keys of the result are exactly
[A, B]; A's entry carries 3, B's entry is the zero entry; under a failed
fetch A's entry is the zero entry. -/
theorem player_projections_contract_witness :
    ((getPlayerProjections ["A", "B"] (.obj [("A", [("pts_half_ppr", 3)])])).map Prod.fst
      = ["A", "B"]) ∧
    ((getPlayerProjections ["A", "B"] (.obj [("A", [("pts_half_ppr", 3)])])).lookup "A"
      = some (projEntryFor (.obj [("A", [("pts_half_ppr", 3)])]) "A")) ∧
    (projEntryFor (.obj [("A", [("pts_half_ppr", 3)])]) "A"
      = ⟨"A", some (((([("pts_half_ppr", (3 : ℚ))] : StatMap).lookup "pts_half_ppr").getD 0)),
          [("pts_half_ppr", 3)]⟩) ∧
    (projEntryFor (.obj [("A", [("pts_half_ppr", 3)])]) "B" = ⟨"B", some 0, []⟩) ∧
    (projEntryFor .err "A" = ⟨"A", some 0, []⟩) := by
  have h := player_projections_contract ["A", "B"] (.obj [("A", [("pts_half_ppr", 3)])])
    "A" [("A", [("pts_half_ppr", 3)])] [("pts_half_ppr", 3)]
  have hB := player_projections_contract ["A", "B"] (.obj [("A", [("pts_half_ppr", 3)])])
    "B" [("A", [("pts_half_ppr", 3)])] []
  exact ⟨h.1, h.2.1 (by decide), h.2.2.1 (by decide), hB.2.2.2.1 (by decide), h.2.2.2.2⟩

/-- The `forEach` fold of the season-average computation equals the sum
and count of the weeks carrying the points field. -/
theorem season_foldl (pf : String) (m : WeekMap) (t : ℚ) (g : Nat) :
    m.foldl (seasonAccum pf) (t, g) =
      (t + (m.filterMap (fun wk => wk.2.stats.bind (fun st => st.lookup pf))).sum,
       g + (m.filterMap (fun wk => wk.2.stats.bind (fun st => st.lookup pf))).length) := by
  induction m generalizing t g with
  | nil => simp
  | cons wk rest ih =>
      cases h : wk.2.stats.bind (fun st => st.lookup pf) with
      | none => simp [seasonAccum, h, ih]
      | some v =>
          simp only [List.foldl_cons, seasonAccum, h, List.filterMap_cons,
            List.sum_cons, List.length_cons, ih]
          rw [Prod.mk.injEq]
          exact ⟨by ring, by omega⟩

/-- The fold started from the source's `(0, 0)` accumulator. -/
theorem season_foldl_zero (pf : String) (m : WeekMap) :
    m.foldl (seasonAccum pf) ((0 : ℚ), (0 : ℕ)) =
      ((m.filterMap (fun wk => wk.2.stats.bind (fun st => st.lookup pf))).sum,
       (m.filterMap (fun wk => wk.2.stats.bind (fun st => st.lookup pf))).length) := by
  rw [season_foldl]
  simp

/-- C6: `getPlayerSeasonAverage` returns the sum of the selected point
field over exactly the weeks whose stats object carries that field,
divided by the count of such weeks — weeks lacking the field are excluded
from both sum and count — and returns 0 rather than failing when no week
carries it; on the claim's example (week 1 worth 10, week 2 missing,
week 3 worth 20) the average is (10+20)/2 = 15, not /3. -/
theorem season_average_spec (m : WeekMap) (st : ScoringType) :
    (getPlayerSeasonAverage (.ok m) st =
      (let vals := m.filterMap fun wk => wk.2.stats.bind
        (fun s => s.lookup (pointsFieldOf st));
       if vals.length = 0 then 0 else vals.sum / (vals.length : ℚ))) ∧
    getPlayerSeasonAverage (.ok c6Stats) st = 15 := by
  constructor
  · cases st <;>
      (simp only [getPlayerSeasonAverage]
       rw [season_foldl_zero]
       simp [pointsFieldOf])
  · cases st <;>
      (simp +decide [getPlayerSeasonAverage, c6Stats, seasonAccum, List.lookup]
       norm_num)

/-- Sum of a function mapped over `List.range'` as a `Finset.Ico` sum. -/
theorem range_map_sum (f : Nat → ℚ) :
    ∀ (n a : Nat), ((List.range' a n).map f).sum = ∑ k ∈ Finset.Ico a (a + n), f k := by
  intro n
  induction n with
  | zero => intro a; simp
  | succ k ih =>
      intro a
      rw [List.range'_succ]
      simp only [List.map_cons, List.sum_cons, ih (a + 1)]
      rw [Finset.sum_eq_sum_Ico_succ_bot (by omega : a < a + (k + 1))]
      rw [show a + (k + 1) = a + 1 + k from by omega]

/-- A week's contribution depends only on the map's binding for that week. -/
theorem weekPoints_congr (m m2 : WeekMap) (pf : String) (k : Nat)
    (h : m.lookup k = m2.lookup k) : weekPoints m pf k = weekPoints m2 pf k := by
  unfold weekPoints
  rw [h]

/-- The rest-of-year loop sums exactly the weeks in `[w + 1, 18]`. -/
theorem computeRestOfYear_eq_sum (m : WeekMap) (pf : String) (w : Nat) :
    computeRestOfYear (.ok m) pf w = ∑ k ∈ Finset.Icc (w + 1) 18, weekPoints m pf k := by
  simp only [computeRestOfYear]
  rw [range_map_sum]
  rcases le_or_lt w 18 with hw | hw
  · have h19 : w + 1 + (18 - w) = 19 := by omega
    rw [h19, ← Nat.Ico_succ_right]
  · have h0 : 18 - w = 0 := by omega
    rw [h0]
    rw [Finset.Icc_eq_empty (by omega)]
    simp

/-- C5: `rest_of_year` equals the sum, over exactly the weeks strictly
greater than the current week and at most 18, of the selected point field
(with a missing week or missing field contributing 0, as `weekPoints`
reads it); consequently it is insensitive to the projection map's bindings
outside that week range — weeks greater than 18 and weeks at most the
current week are never summed; a fetch failure yields 0. -/
theorem rest_of_year_sum (m m2 : WeekMap) (pf : String) (w : Nat) :
    (computeRestOfYear (.ok m) pf w = ∑ k ∈ Finset.Icc (w + 1) 18, weekPoints m pf k) ∧
    ((∀ k, w + 1 ≤ k → k ≤ 18 → m.lookup k = m2.lookup k) →
      computeRestOfYear (.ok m) pf w = computeRestOfYear (.ok m2) pf w) ∧
    (computeRestOfYear (.error ()) pf w = 0) := by
  refine ⟨computeRestOfYear_eq_sum m pf w, ?_, rfl⟩
  intro hag
  rw [computeRestOfYear_eq_sum, computeRestOfYear_eq_sum]
  refine Finset.sum_congr rfl fun k hk => ?_
  have hb := Finset.mem_Icc.mp hk
  exact weekPoints_congr m m2 pf k (hag k hb.1 hb.2)

/-- Witness for C5 at the claim's example: current week 5, projections
present for weeks 6 (5 points) and 7 (7 points), week 9 (and every other
week) missing — the total is 5 + 7 = 12; the insensitivity conjunct is
applied with an extension of the map at week 25, which leaves the result
unchanged. -/
theorem rest_of_year_sum_witness :
    (computeRestOfYear (.ok c5Proj) "pts_half_ppr" 5
      = ∑ k ∈ Finset.Icc 6 18, weekPoints c5Proj "pts_half_ppr" k) ∧
    (computeRestOfYear (.ok c5Proj) "pts_half_ppr" 5
      = computeRestOfYear
          (.ok (c5Proj ++ [(25, WeekEntry.mk (some [("pts_half_ppr", 99)]) [])]))
          "pts_half_ppr" 5) ∧
    (computeRestOfYear (.ok c5Proj) "pts_half_ppr" 5 = 12) := by
  have h := rest_of_year_sum c5Proj
    (c5Proj ++ [(25, WeekEntry.mk (some [("pts_half_ppr", 99)]) [])]) "pts_half_ppr" 5
  have h12 : computeRestOfYear (.ok c5Proj) "pts_half_ppr" 5 = 12 := by
    have hr : List.range' 6 13 = [6, 7, 8, 9, 10, 11, 12, 13, 14, 15, 16, 17, 18] := rfl
    simp +decide [computeRestOfYear, hr, weekPoints, c5Proj, List.lookup]
    norm_num
  refine ⟨h.1, h.2.1 ?_, h12⟩
  intro k h1 h2
  interval_cases k <;> rfl

/-- The push-loop of `enhancePlayerData` appends the per-player results in
input order. -/
theorem enhancePlayerDataGo_eq (env : EnrichEnv) (ps : List Player) :
    ∀ acc, enhancePlayerDataGo env ps acc = acc.reverse ++ ps.map (enhanceOne env) := by
  induction ps with
  | nil => intro acc; simp [enhancePlayerDataGo]
  | cons p rest ih => intro acc; simp [enhancePlayerDataGo, ih]

/-- C4: `enhancePlayerData` returns one enriched record per input player,
in input order, each computed from that player alone (the map form), so a
thrown per-player fetch never aborts the remaining players; the record
keeps the input player; and when a player's per-player stats fetch throws
its season average is 0, when its per-player projections fetch throws its
rest-of-year is 0 and — if it also has no bulk entry — its projected
points are 0. -/
theorem enhance_resilient_per_player (env : EnrichEnv) (players : List Player)
    (p : Player) :
    (enhancePlayerData env players = players.map (enhanceOne env)) ∧
    ((enhancePlayerData env players).length = players.length) ∧
    ((enhanceOne env p).base = p) ∧
    (env.specStats p.player_id = .error () → (enhanceOne env p).season_avg = 0) ∧
    (env.specProj p.player_id = .error () → (enhanceOne env p).rest_of_year = 0) ∧
    (env.specProj p.player_id = .error () →
      env.projections.lookup p.player_id = none →
      (enhanceOne env p).projected_points = 0) := by
  refine ⟨enhancePlayerDataGo_eq env players [], ?_, rfl, ?_, ?_, ?_⟩
  · show (enhancePlayerDataGo env players []).length = players.length
    rw [enhancePlayerDataGo_eq env players []]
    simp
  · intro h; simp [enhanceOne, h, getPlayerSeasonAverage]
  · intro h; simp [enhanceOne, h, computeRestOfYear]
  · intro h h2; simp [enhanceOne, h, h2, computeProjectedPoints]

/-- Witness for C4 at a concrete two-player batch: P1's per-player fetches
throw and P1 has no bulk entry, so its three fetched metrics are 0, while
P2 is still processed and keeps its bulk projection of 14. -/
theorem enhance_resilient_per_player_witness :
    (enhancePlayerData envC4 [⟨"P1"⟩, ⟨"P2"⟩] = [⟨"P1"⟩, ⟨"P2"⟩].map (enhanceOne envC4)) ∧
    ((enhancePlayerData envC4 [⟨"P1"⟩, ⟨"P2"⟩]).length = 2) ∧
    ((enhanceOne envC4 ⟨"P1"⟩).base = ⟨"P1"⟩) ∧
    ((enhanceOne envC4 ⟨"P1"⟩).season_avg = 0) ∧
    ((enhanceOne envC4 ⟨"P1"⟩).rest_of_year = 0) ∧
    ((enhanceOne envC4 ⟨"P1"⟩).projected_points = 0) ∧
    ((enhanceOne envC4 ⟨"P2"⟩).projected_points = 14) := by
  have h := enhance_resilient_per_player envC4 [⟨"P1"⟩, ⟨"P2"⟩] ⟨"P1"⟩
  exact ⟨h.1, h.2.1, h.2.2.1,
    h.2.2.2.1 (by simp +decide [envC4]),
    h.2.2.2.2.1 (by simp +decide [envC4]),
    h.2.2.2.2.2 (by simp +decide [envC4]) (by simp +decide [envC4, List.lookup]),
    by simp +decide [enhanceOne, envC4, getScoringType, pointsFieldOf,
      computeProjectedPoints, List.lookup]⟩

/-- C1 (amended): reception coefficient 1 derives the full-PPR class, and
the `pts_ppr` field is then used for `previous_week_points`, for the
season average, for rest-of-year, and for the per-player fallback of
`projected_points`; any other coefficient (0.5, 0, absent, custom) derives
half-PPR and `pts_half_ppr` is used in those places; the bulk-projection
`projected_points`, however, is extracted from the feed entry's
`pts_half_ppr` field unconditionally — also in a full-PPR league — because
`getPlayerProjections` reads `pts_half_ppr` before any scoring class is
consulted. -/
theorem scoring_field_selection (s : ScoringSettings) (env : EnrichEnv) (p : Player)
    (m : List (String × StatMap)) (pid : String) (pd : StatMap) :
    (s.recPoints.getD 0 = 1 → getScoringType (some s) = .ppr) ∧
    (s.recPoints.getD 0 ≠ 1 → getScoringType (some s) = .half_ppr) ∧
    (getScoringType none = .half_ppr) ∧
    (pointsFieldOf .ppr = "pts_ppr" ∧ pointsFieldOf .half_ppr = "pts_half_ppr") ∧
    (env.scoringSettings = some s → s.recPoints.getD 0 = 1 →
      ((enhanceOne env p).previous_week_points =
        computePreviousWeekPoints (env.stats.lookup p.player_id) "pts_ppr") ∧
      ((enhanceOne env p).rest_of_year =
        computeRestOfYear (env.specProj p.player_id) "pts_ppr" env.currentWeek) ∧
      ((enhanceOne env p).season_avg =
        getPlayerSeasonAverage (env.specStats p.player_id) .ppr) ∧
      (env.projections.lookup p.player_id = none →
        (enhanceOne env p).projected_points =
          computeProjectedPoints none (env.specProj p.player_id) "pts_ppr"
            env.currentWeek)) ∧
    (env.scoringSettings = some s → s.recPoints.getD 0 ≠ 1 →
      (enhanceOne env p).previous_week_points =
        computePreviousWeekPoints (env.stats.lookup p.player_id) "pts_half_ppr") ∧
    (m.lookup pid = some pd →
      (projEntryFor (.obj m) pid).projected_points =
        some ((pd.lookup "pts_half_ppr").getD 0)) := by
  refine ⟨?_, ?_, rfl, ⟨rfl, rfl⟩, ?_, ?_, ?_⟩
  · intro h; simp [getScoringType, h]
  · intro h
    simp only [getScoringType]
    split_ifs <;> simp_all
  · intro hs h1
    refine ⟨?_, ?_, ?_, ?_⟩
    · simp [enhanceOne, hs, getScoringType, h1, pointsFieldOf]
    · simp [enhanceOne, hs, getScoringType, h1, pointsFieldOf]
    · simp [enhanceOne, hs, getScoringType, h1, pointsFieldOf]
    · intro h2
      simp [enhanceOne, hs, getScoringType, h1, pointsFieldOf, h2]
  · intro hs h1
    have hty : getScoringType (some s) = .half_ppr := by
      simp only [getScoringType]
      split_ifs <;> simp_all
    simp [enhanceOne, hs, hty, pointsFieldOf]
  · intro h; simp [projEntryFor, h]

/-- Witness for C1's theorem: a league with `rec = 1` derives full PPR and
`envC1`'s previous-week metric reads `pts_ppr`; a league with `rec = 0.5`
derives half PPR; the feed entry for P1 is extracted through
`pts_half_ppr`. -/
theorem scoring_field_selection_witness :
    (getScoringType (some ⟨some 1, none⟩) = .ppr) ∧
    (getScoringType (some ⟨some (1 / 2), none⟩) = .half_ppr) ∧
    ((enhanceOne envC1 ⟨"P1"⟩).previous_week_points =
      computePreviousWeekPoints (envC1.stats.lookup "P1") "pts_ppr") ∧
    ((enhanceOne envC1 ⟨"P1"⟩).season_avg =
      getPlayerSeasonAverage (envC1.specStats "P1") .ppr) ∧
    ((projEntryFor (.obj c1FeedMap) "P1").projected_points =
      some ((([("pts_ppr", (10 : ℚ)), ("pts_half_ppr", 7)] : StatMap).lookup
        "pts_half_ppr").getD 0)) := by
  have h1 := scoring_field_selection ⟨some 1, none⟩ envC1 ⟨"P1"⟩ c1FeedMap "P1"
    [("pts_ppr", 10), ("pts_half_ppr", 7)]
  have h2 := scoring_field_selection ⟨some (1 / 2), none⟩ envC1 ⟨"P1"⟩ c1FeedMap "P1"
    [("pts_ppr", 10), ("pts_half_ppr", 7)]
  have hm := h1.2.2.2.2.1 (by simp [envC1, pprSettings]) (by decide)
  exact ⟨h1.1 (by decide), h2.2.1 (by norm_num), hm.1, hm.2.2.1,
    h1.2.2.2.2.2.2 (by decide)⟩

/-- Counterexample to C1 as stated: in a full-PPR league (`rec = 1`) whose
bulk feed entry for P1 carries `pts_ppr = 10` and `pts_half_ppr = 7`, the
enriched `projected_points` is 7 — the value of `pts_half_ppr` — not the
10 that reading `pts_ppr` from the bulk entry would give. -/
theorem scoring_full_ppr_bulk_counterexample :
    getScoringType pprSettings = .ppr ∧
    pointsFieldOf (getScoringType pprSettings) = "pts_ppr" ∧
    ((c1FeedMap.lookup "P1").bind (fun pd => pd.lookup "pts_ppr") = some 10) ∧
    ((enhanceOne envC1 ⟨"P1"⟩).projected_points = 7) ∧
    ((enhanceOne envC1 ⟨"P1"⟩).projected_points ≠ 10) := by
  exact ⟨by decide, by decide, by decide, by decide, by decide⟩
